import Mathlib

/-!
Verification of the ChefSocial recipe-library core: the save/unsave
deduplication toggle, the local-to-cloud migration run on login, the
bilingual substring search, tag/legacy-category resolution, dish
categorization, and the load/auth error-recovery paths.

The definitions below are a shallow embedding of
`frontend/src/app/page.tsx` (the `HomeContent` component) together with
the record types of `frontend/src/types.ts`.  React state plus the two
`localStorage` slots plus the remote collection are modelled as an
explicit `StoreState`; each event handler becomes a state-transition
function taking the outcomes of its remote calls as parameters.
-/

/-- Structure `Ingredient` from `types.ts`: item name with optional amount, unit and
group label. -/
structure Ingredient where
  item : String
  amount : Option String := none
  unit : Option String := none
  group : Option String := none
  deriving DecidableEq

/-- Structure `Recipe` from `types.ts`: title is the de-facto identity key; `tags`
is optional (and, being a JS array, distinguishes "absent" from
"present but empty"); `category` is the legacy single-category field;
`id` is assigned by the server in remote mode. -/
structure Recipe where
  id : Option String := none
  title : String
  description : String := ""
  ingredients : List Ingredient := []
  instructions : List String := []
  prep_time : Option String := none
  cook_time : Option String := none
  servings : Option String := none
  image_url : Option String := none
  image : Option String := none
  tags : Option (List String) := none
  keywords : Option (List String) := none
  category : Option String := none
  deriving DecidableEq

/-- The `User` record produced by the auth endpoint (`page.tsx`):
id, email, optional display name and avatar, bearer token. -/
structure User where
  id : String
  email : String
  name : Option String := none
  avatar_url : Option String := none
  token : String
  deriving DecidableEq

/-- ASCII lowering of one character, as JS `toLowerCase` acts on the
ASCII range (all strings handled by the search code are ASCII). -/
def lowerChar (c : Char) : Char :=
  if 65 ≤ c.toNat && c.toNat ≤ 90 then Char.ofNat (c.toNat + 32) else c

/-- JS `String.prototype.toLowerCase`, restricted to ASCII. -/
def lowerStr (s : String) : String :=
  ⟨s.data.map lowerChar⟩

/-- JS `String.prototype.includes`: `needle` occurs contiguously in
`hay`. -/
def containsStr (hay needle : String) : Bool :=
  decide (needle.data <:+: hay.data)

/-- The static bilingual synonym table `TRANSLATIONS` of `page.tsx`,
verbatim. -/
def TRANSLATIONS : List (String × List String) :=
  [("chicken", ["kip", "gevogelte", "poultry"]),
   ("beef", ["rund", "biefstuk", "steak", "meat"]),
   ("pork", ["varken", "ham", "spek", "bacon", "pork belly"]),
   ("fish", ["vis", "zalm", "tonijn", "salmon", "tuna", "cod", "kabeljauw"]),
   ("shrimp", ["garnaal", "garnalen", "prawns"]),
   ("pasta", ["spaghetti", "macaroni", "penne", "lasagna", "noedels", "noodles"]),
   ("rice", ["rijst", "risotto"]),
   ("vegetable", ["groente", "vega", "vegetarian"]),
   ("cheese", ["kaas", "parmezaan", "cheddar", "mozzarella"]),
   ("egg", ["ei", "eieren", "eggs"]),
   ("bread", ["brood", "toast", "sandwich"]),
   ("kip", ["chicken", "poultry"]),
   ("rund", ["beef", "steak"]),
   ("varken", ["pork", "ham", "bacon"]),
   ("vis", ["fish", "salmon", "tuna"]),
   ("garnaal", ["shrimp", "prawns"]),
   ("groente", ["vegetable", "veggie", "vega"]),
   ("ontbijt", ["breakfast"]),
   ("lunch", ["middageten"]),
   ("avondeten", ["dinner"]),
   ("toetje", ["dessert"]),
   ("drankje", ["drink", "cocktail", "smoothie"]),
   ("gezond", ["healthy", "low-carb", "salad", "bowl"]),
   ("snel", ["quick", "fast", "15 mins", "airfryer"]),
   ("airfryer", ["hetelucht"]),
   ("bbq", ["barbecue", "grillen", "braai"])]

/-- Lookup `TRANSLATIONS[q]` with a missing key giving no synonyms: the single
exact-key, single-hop lookup of `page.tsx`. -/
def translationsFor (q : String) : List String :=
  (TRANSLATIONS.lookup q).getD []

/-- The term list `[q, ...TRANSLATIONS[q]]` built by the search filter of
`page.tsx`; the caller passes the already-lowercased query. -/
def searchTermsFor (ql : String) : List String :=
  ql :: translationsFor ql

/-- The raw search text `[r.title, r.description, ...(r.tags || []),
r.category || ''].join(' ')` of `page.tsx`, before lowercasing. -/
def joinedSearchFields (r : Recipe) : String :=
  String.intercalate " " ([r.title, r.description] ++ r.tags.getD [] ++ [r.category.getD ""])

/-- The lowercased `textToSearch` of `page.tsx`. -/
def searchText (r : Recipe) : String :=
  lowerStr (joinedSearchFields r)

/-- Predicate `matches` in the search branch of `filteredRecipes` in `page.tsx`:
some expanded term is a substring of the lowercased search text. -/
def recipeMatches (q : String) (r : Recipe) : Bool :=
  (searchTermsFor (lowerStr q)).any (fun t => containsStr (searchText r) t)

/-- Helper `categoryToTags` of `page.tsx`: wraps the legacy category into a
singleton tag list. -/
def categoryToTags (cat : String) : List String :=
  [cat]

/-- The tag-resolution expression `r.tags || (r.category ?
categoryToTags(r.category) : [])` used at the category filter and both
tag displays of `page.tsx`.  JS `||` falls through only when `r.tags` is
absent: a present-but-empty array is truthy and is kept as-is.  The
ternary guard `r.category ?` tests JS string truthiness, so an absent
category and a present empty-string category both yield no tags. -/
def tagsOrLegacy (r : Recipe) : List String :=
  match r.tags with
  | some ts => ts
  | none => match r.category with
    | some c => if c = "" then [] else categoryToTags c
    | none => []

/-- One recipe's pass through the `filteredRecipes` predicate of
`page.tsx`: the (skipped-when-empty) bilingual search check followed by
the (skipped-when-"All") category-chip check. -/
def passesFilter (q cat : String) (r : Recipe) : Bool :=
  (if q = "" then true else recipeMatches q r) &&
    (if cat = "All" then true
     else ((tagsOrLegacy r).map lowerStr).contains (lowerStr cat))

/-- Computation `filteredRecipes` of `page.tsx`, with the two pieces of component
state (`searchQuery`, `selectedCategory`) made explicit arguments. -/
def filteredRecipes (q cat : String) (C : List Recipe) : List Recipe :=
  C.filter (passesFilter q cat)

/-- The spec's `search(query, Collection)`: `filteredRecipes` with the
category chip at its default "All". -/
def search (q : String) (C : List Recipe) : List Recipe :=
  filteredRecipes q "All" C

/-- The fixed ordered `DISH_TYPES` list of `page.tsx`, verbatim and in
source order (note: `Pasta` precedes `Pizza`). -/
def DISH_TYPES : List String :=
  ["Airfryer", "BBQ", "Slow Cooker", "Pasta", "Pizza", "Burger", "Sandwich", "Wrap", "Tacos",
   "Salad", "Bowl", "Soup", "Stew", "Curry", "Rice", "Meat", "Fish", "Chicken", "Vegetarian",
   "Vegan", "Low-Carb", "High-Protein", "Smoothie", "Cocktail", "Sauce", "Side"]

/-- Whether a dish-type name case-insensitively matches one of the
recipe's resolved tags, the membership test of the category chips in
`page.tsx`. -/
def dishMatches (r : Recipe) (d : String) : Bool :=
  ((tagsOrLegacy r).map lowerStr).contains (lowerStr d)

/-- Modelled from the spec: the exclusive, priority-ordered dish
assignment of §4.3 (the bucket-building Categorizer is not present in
the sources, only its `DISH_TYPES` list and the `CategoryAccordion`
renderer are): the recipe is assigned to the first `DISH_TYPES` entry
whose name case-insensitively matches one of its tags, later matches
being ignored; `none` means the catch-all bucket. -/
def assignDish (r : Recipe) : Option String :=
  DISH_TYPES.find? (dishMatches r)

/-- Modelled from the spec: the dish bucket of a given dish-type name is
the set of collection members exclusively assigned to it by
`assignDish`. -/
def dishBucket (d : String) (C : List Recipe) : List Recipe :=
  C.filter (fun r => assignDish r == some d)

/-- The application state touched by the handlers of `page.tsx`:
the React state (`user`, `savedRecipes`, `error`), the two persisted
`localStorage` slots (`chefSocial_user`, `chefSocial_cookbook`), the
remote collection held by the server, and the trace of `POST /recipes`
bodies issued so far. -/
structure StoreState where
  user : Option User := none
  savedRecipes : List Recipe := []
  error : Option String := none
  userSlot : Option User := none
  cookbookSlot : Option (List Recipe) := none
  remote : List Recipe := []
  postedRecipes : List Recipe := []
  deriving DecidableEq

/-- Handler `saveRecipe` of `page.tsx` (the toggle mediating every save).
`resp` is the outcome of the remote create call when one is issued:
`some sr` means the server answered OK with the stored copy `sr`
(server-assigned id attached, per the §6 endpoint contract), `none`
means the call failed (error response or thrown, both leave the
collection untouched).  In the unsave branch no remote call is issued,
and the local blob is rewritten only when no user is present. -/
def saveRecipe (st : StoreState) (r : Recipe) (resp : Option Recipe) : StoreState :=
  if st.savedRecipes.any (fun x => x.title == r.title) then
    let newSaved := st.savedRecipes.filter (fun x => x.title != r.title)
    { st with
        savedRecipes := newSaved,
        cookbookSlot := if st.user.isNone then some newSaved else st.cookbookSlot }
  else
    match st.user with
    | some _ =>
      match resp with
      | some sr =>
        { st with
            savedRecipes := sr :: st.savedRecipes,
            remote := st.remote ++ [sr],
            postedRecipes := st.postedRecipes ++ [r] }
      | none => { st with postedRecipes := st.postedRecipes ++ [r] }
    | none =>
      { st with
          savedRecipes := r :: st.savedRecipes,
          cookbookSlot := some (r :: st.savedRecipes) }

/-- Outcome of the `POST /auth/google` call in `handleGoogleLogin`:
an OK response carrying the user, an error response carrying `detail`,
or a thrown transport error. -/
inductive AuthOutcome where
  | success (u : User)
  | httpError (detail : String)
  | exn (msg : String)
  deriving DecidableEq

/-- Outcome of one awaited migration `POST /recipes` call: resolved OK,
resolved with an error response (ignored by the loop), or rejected
(thrown), which escapes the `for` loop into the outer `catch`. -/
inductive CallOutcome where
  | ok
  | httpErr
  | exn (msg : String)
  deriving DecidableEq

/-- The migration `for` loop of `handleGoogleLogin`, recipe by recipe
against the positional call outcomes: returns the recipes actually
posted (in order) and, when some call threw, the message of the first
throw, at which point the loop aborts.  Outcomes beyond the given list
default to OK. -/
def runMigration : List Recipe → List CallOutcome → List Recipe × Option String
  | [], _ => ([], none)
  | r :: rs, [] =>
    let res := runMigration rs []
    (r :: res.1, res.2)
  | r :: rs, o :: os =>
    match o with
    | .exn m => ([r], some m)
    | _ =>
      let res := runMigration rs os
      (r :: res.1, res.2)

/-- Handler `handleGoogleLogin` of `page.tsx`.  On an OK auth response the user
is installed in memory and in the persisted slot, then (when the local
cookbook slot holds a parsed collection) each local recipe is posted
sequentially via `runMigration`; if no call threw, the local slot is
removed and the cloud listing (outcome `listResp`, `none` for a failed
fetch) replaces the in-memory collection; if a call threw, control lands
in the outer catch, which records the error and skips both the slot
removal and the listing fetch.  Auth failures only record an error. -/
def handleGoogleLogin (st : StoreState) (auth : AuthOutcome)
    (outcomes : List CallOutcome) (listResp : Option (List Recipe)) : StoreState :=
  match auth with
  | .success u =>
    let st1 := { st with user := some u, userSlot := some u }
    match st1.cookbookSlot with
    | some recipes =>
      let res := runMigration recipes outcomes
      match res.2 with
      | none =>
        let st2 := { st1 with
          postedRecipes := st1.postedRecipes ++ res.1,
          cookbookSlot := none }
        match listResp with
        | some rs => { st2 with savedRecipes := rs }
        | none => st2
      | some m =>
        { st1 with
            postedRecipes := st1.postedRecipes ++ res.1,
            error := some ("Login error: " ++ m) }
    | none =>
      match listResp with
      | some rs => { st1 with savedRecipes := rs }
      | none => st1
  | .httpError d => { st with error := some ("Login failed: " ++ d) }
  | .exn m => { st with error := some ("Login error: " ++ m) }

/-- State of one persisted `localStorage` slot as the mount effect sees
it: key absent, present but failing `JSON.parse`, or parsed to a value.
-/
inductive Blob (α : Type) where
  | absent
  | corrupt
  | stored (a : α)
  deriving DecidableEq

/-- What the mount effect of `page.tsx` leaves in React state: the user,
the collection, the surfaced error, and whether a failure was logged to
the console. -/
structure MountResult where
  user : Option User
  savedRecipes : List Recipe
  error : Option String
  loggedError : Bool
  deriving DecidableEq

/-- The mount effect of `page.tsx` (`React.useEffect` on load): a stored
user is installed (the cloud fetch it kicks off is a separate step and
the collection stays at its initial `[]` here); a corrupt user blob is
logged and leaves everything at the initial state; with no user slot the
cookbook slot is read, a corrupt blob being logged and leaving the
initial empty collection.  No branch writes `error`. -/
def mountLoad : Blob User → Blob (List Recipe) → MountResult
  | .stored u, _ => ⟨some u, [], none, false⟩
  | .corrupt, _ => ⟨none, [], none, true⟩
  | .absent, .stored rs => ⟨none, rs, none, false⟩
  | .absent, .corrupt => ⟨none, [], none, true⟩
  | .absent, .absent => ⟨none, [], none, false⟩

/-- Boolean discriminator for the thrown migration outcome. -/
def CallOutcome.isExn : CallOutcome → Bool
  | .exn _ => true
  | _ => false

/-- The spec's notion of a case-insensitive substring: lowering both the
needle and the haystack. -/
def caseInsensitiveSubstr (needle hay : String) : Bool :=
  containsStr (lowerStr hay) (lowerStr needle)

/-- The search predicate exactly as the spec words it: some term of
{lowered query} ∪ synonyms(lowered query) is a case-insensitive
substring of the separator-joined title/description/tags/category text.
-/
def specSearchMatch (q : String) (r : Recipe) : Bool :=
  (searchTermsFor (lowerStr q)).any (fun t => caseInsensitiveSubstr t (joinedSearchFields r))

theorem toNat_ofNat_of_lt {n : Nat} (h : n < 55296) : (Char.ofNat n).toNat = n := by
  have hv : n.isValidChar := Or.inl h
  simp [Char.ofNat, hv, Char.ofNatAux, Char.toNat, UInt32.toNat]

theorem lowerChar_lowerChar (c : Char) : lowerChar (lowerChar c) = lowerChar c := by
  unfold lowerChar
  by_cases h : 65 ≤ c.toNat ∧ c.toNat ≤ 90
  · have hb : (65 ≤ c.toNat && c.toNat ≤ 90) = true := by
      simp [h.1, h.2]
    rw [hb]
    simp only [if_true]
    have ht : (Char.ofNat (c.toNat + 32)).toNat = c.toNat + 32 :=
      toNat_ofNat_of_lt (by omega)
    rw [if_neg]
    rw [ht]
    simp only [Bool.and_eq_true, decide_eq_true_eq, not_and]
    omega
  · have hb : (65 ≤ c.toNat && c.toNat ≤ 90) = false := by
      simp only [Bool.and_eq_false_iff, decide_eq_false_iff_not]
      omega
    rw [hb]
    simp only [Bool.false_eq_true, if_false]
    rw [hb]
    simp

theorem lowerStr_lowerStr (s : String) : lowerStr (lowerStr s) = lowerStr s := by
  unfold lowerStr
  apply congrArg
  simp only [List.map_map]
  apply List.map_congr_left
  intro a _
  exact lowerChar_lowerChar a

theorem lookup_mem {q : String} {ts : List String} {l : List (String × List String)}
    (h : l.lookup q = some ts) : (q, ts) ∈ l := by
  induction l with
  | nil => simp [List.lookup] at h
  | cons p l ih =>
    rcases p with ⟨k, v⟩
    rw [List.lookup] at h
    split at h
    · rename_i hq
      cases h
      have hq' : q = k := by simpa using hq
      subst hq'
      exact List.mem_cons_self _ _
    · exact List.mem_cons_of_mem _ (ih h)

/-- Every synonym stored in the translation table is already lowercase.
-/
theorem translations_lower : ∀ p ∈ TRANSLATIONS, ∀ t ∈ p.2, lowerStr t = t := by
  decide

/-- Every term the search expands a query into is fixed by lowering. -/
theorem searchTerms_lower (q : String) :
    ∀ t ∈ searchTermsFor (lowerStr q), lowerStr t = t := by
  intro t ht
  rcases List.mem_cons.mp ht with h | h
  · subst h
    exact lowerStr_lowerStr q
  · unfold translationsFor at h
    cases hl : TRANSLATIONS.lookup (lowerStr q) with
    | none => rw [hl] at h; simp at h
    | some ts =>
      rw [hl] at h
      exact translations_lower _ (lookup_mem hl) t h

theorem any_congr {α : Type} {l : List α} {f g : α → Bool}
    (h : ∀ a ∈ l, f a = g a) : l.any f = l.any g := by
  induction l with
  | nil => rfl
  | cons a l ih =>
    simp only [List.any_cons]
    rw [h a (List.mem_cons_self _ _), ih fun b hb => h b (List.mem_cons_of_mem _ hb)]

/-- The code's match test coincides with the spec's case-insensitive
wording, because every expanded term is already lowercase. -/
theorem recipeMatches_eq_specSearchMatch (q : String) (r : Recipe) :
    recipeMatches q r = specSearchMatch q r := by
  unfold recipeMatches specSearchMatch
  apply any_congr
  intro t ht
  unfold caseInsensitiveSubstr searchText
  rw [searchTerms_lower q t ht]

/-- A recipe whose title is "Grilled Chicken Thighs", used for the
search example. -/
def grilledChicken : Recipe :=
  { title := "Grilled Chicken Thighs" }

/-- C4: for every non-empty query, the search filter keeps exactly the
recipes for which some term of {lowercased query} ∪ synonyms(query)
(one exact-key, single-hop table lookup) is a case-insensitive substring
of the separator-joined title/description/tags/legacy-category text; the
table maps "kip" to ["chicken", "poultry"], so the query "kip" matches a
recipe titled "Grilled Chicken Thighs". -/
theorem C4_search_synonym_expansion :
    (∀ (q : String) (C : List Recipe), q ≠ "" →
      search q C = C.filter (specSearchMatch q)) ∧
    translationsFor "kip" = ["chicken", "poultry"] ∧
    search "kip" [grilledChicken] = [grilledChicken] := by
  refine ⟨?_, by decide, by decide⟩
  intro q C hq
  unfold search filteredRecipes
  apply List.filter_congr
  intro r _
  unfold passesFilter
  rw [if_neg hq, if_pos rfl, Bool.and_true]
  exact recipeMatches_eq_specSearchMatch q r

/-- Witness for C4 at the concrete query "pasta". -/
theorem C4_search_synonym_expansion_witness :
    search "pasta" [grilledChicken] = List.filter (specSearchMatch "pasta") [grilledChicken] :=
  C4_search_synonym_expansion.1 "pasta" [grilledChicken] (by decide)

/-- C5: an empty query returns the collection unchanged and in order,
and every search result is an order-preserving filter (a subsequence) of
its input. -/
theorem C5_search_order_preserving :
    (∀ C : List Recipe, search "" C = C) ∧
    ∀ (q : String) (C : List Recipe), (search q C).Sublist C := by
  constructor
  · intro C
    unfold search filteredRecipes
    apply List.filter_eq_self.mpr
    intro a _
    unfold passesFilter
    simp
  · intro q C
    exact List.filter_sublist C

/-- C8: a stored local collection blob that fails to parse is recovered
as the empty collection: the in-memory collection is empty, the failure
is logged to the console, and no error is surfaced to the user. -/
theorem C8_corrupt_blob_treated_empty :
    (mountLoad Blob.absent Blob.corrupt).savedRecipes = [] ∧
    (mountLoad Blob.absent Blob.corrupt).error = none ∧
    (mountLoad Blob.absent Blob.corrupt).loggedError = true :=
  ⟨rfl, rfl, rfl⟩

/-- C1: when some saved recipe carries the incoming title, `saveRecipe`
removes every such recipe and issues no create call; otherwise in local
mode it prepends the incoming recipe, and in remote mode it issues the
create call and prepends the server-assigned copy that comes back. -/
theorem C1_toggleSave_cases (st : StoreState) (r : Recipe) (resp : Option Recipe)
    (u : User) (sr : Recipe) :
    (st.savedRecipes.any (fun x => x.title == r.title) = true →
      (saveRecipe st r resp).savedRecipes
          = st.savedRecipes.filter (fun x => x.title != r.title) ∧
      (saveRecipe st r resp).postedRecipes = st.postedRecipes ∧
      (saveRecipe st r resp).remote = st.remote) ∧
    (st.savedRecipes.any (fun x => x.title == r.title) = false → st.user = none →
      (saveRecipe st r resp).savedRecipes = r :: st.savedRecipes) ∧
    (st.savedRecipes.any (fun x => x.title == r.title) = false → st.user = some u →
      resp = some sr →
      (saveRecipe st r resp).savedRecipes = sr :: st.savedRecipes ∧
      (saveRecipe st r resp).postedRecipes = st.postedRecipes ++ [r]) := by
  refine ⟨?_, ?_, ?_⟩
  · intro hAny
    simp [saveRecipe, hAny]
  · intro hAny hU
    simp [saveRecipe, hAny, hU]
  · intro hAny hU hresp
    simp [saveRecipe, hAny, hU, hresp]

/-- A saved soup recipe used as concrete data. -/
def soupA : Recipe :=
  { title := "Soup A", tags := some ["Dinner", "Soup"] }

/-- A second concrete recipe with a distinct title. -/
def soupB : Recipe :=
  { title := "Soup B", tags := some ["Soup"] }

/-- A concrete logged-in user. -/
def aliceUser : User :=
  { id := "1", email := "alice@example.com", token := "tok" }

/-- Witness for C1: all three branches at concrete inputs. -/
theorem C1_toggleSave_cases_witness :
    (saveRecipe { savedRecipes := [soupA] } soupA none).savedRecipes = [] ∧
    (saveRecipe { savedRecipes := [soupB] } soupA none).savedRecipes = [soupA, soupB] ∧
    (saveRecipe { user := some aliceUser } soupA
        (some { soupA with id := some "41" })).savedRecipes
      = [{ soupA with id := some "41" }] := by
  refine ⟨?_, ?_, ?_⟩
  · have h := (C1_toggleSave_cases { savedRecipes := [soupA] } soupA none aliceUser soupA).1
      (by decide)
    rw [h.1]
    decide
  · exact (C1_toggleSave_cases { savedRecipes := [soupB] } soupA none aliceUser soupA).2.1
      (by decide) rfl
  · exact ((C1_toggleSave_cases { user := some aliceUser } soupA
      (some { soupA with id := some "41" }) aliceUser { soupA with id := some "41" }).2.2
      (by decide) rfl rfl).1

/-- C10: an authenticated unsave (title already present, session
present) mutates only the in-memory collection: no create call is
issued, the remote collection is untouched, and the local persisted
blob is not rewritten. -/
theorem C10_authenticated_unsave_frame (st : StoreState) (r : Recipe)
    (resp : Option Recipe) (u : User)
    (hU : st.user = some u)
    (hAny : st.savedRecipes.any (fun x => x.title == r.title) = true) :
    (saveRecipe st r resp).savedRecipes
        = st.savedRecipes.filter (fun x => x.title != r.title) ∧
    (saveRecipe st r resp).postedRecipes = st.postedRecipes ∧
    (saveRecipe st r resp).remote = st.remote ∧
    (saveRecipe st r resp).cookbookSlot = st.cookbookSlot := by
  simp [saveRecipe, hAny, hU]

/-- Witness for C10: unsaving a saved soup while logged in. -/
theorem C10_authenticated_unsave_frame_witness :
    (saveRecipe { user := some aliceUser, savedRecipes := [soupA], remote := [soupA] }
        soupA none).savedRecipes = [] ∧
    (saveRecipe { user := some aliceUser, savedRecipes := [soupA], remote := [soupA] }
        soupA none).remote = [soupA] := by
  have h := C10_authenticated_unsave_frame
    { user := some aliceUser, savedRecipes := [soupA], remote := [soupA] }
    soupA none aliceUser rfl (by decide)
  exact ⟨by rw [h.1]; decide, by rw [h.2.2.1]⟩

/-- Removing all title-matches by filtering coincides with erasing the
single occurrence of `r`, when every title-match in the collection is
`r` itself and occurs at most once. -/
theorem filter_title_eq_erase (r : Recipe) :
    ∀ C : List Recipe, (∀ x ∈ C, x.title = r.title → x = r) →
    C.countP (fun x => x.title == r.title) ≤ 1 →
    C.filter (fun x => x.title != r.title) = C.erase r := by
  intro C
  induction C with
  | nil => intro _ _; rfl
  | cons a C ih =>
    intro hUniq hCount
    by_cases ha : a.title = r.title
    · have haR : a = r := hUniq a (List.mem_cons_self _ _) ha
      subst haR
      rw [List.erase_cons_head]
      have hCz : C.countP (fun x => x.title == a.title) = 0 := by
        rw [List.countP_cons, if_pos (by simp : (a.title == a.title) = true)] at hCount
        omega
      have hall := List.countP_eq_zero.mp hCz
      have : C.filter (fun x => x.title != a.title) = C := by
        apply List.filter_eq_self.mpr
        intro x hx
        have hbx := hall x hx
        simp at hbx ⊢
        exact hbx
      rw [List.filter_cons_of_neg (by simp)]
      exact this
    · have hne : a ≠ r := fun h => ha (h ▸ rfl)
      rw [List.filter_cons_of_pos (by simp [ha]), List.erase_cons_tail]
      · have hCount' : C.countP (fun x => x.title == r.title) ≤ 1 := by
          rw [List.countP_cons] at hCount
          simp [ha] at hCount
          omega
        rw [ih (fun x hx => hUniq x (List.mem_cons_of_mem _ hx)) hCount']
      · simp [hne]

/-- C3 is false as stated: unsaving a stored recipe and re-toggling with
a same-titled but different recipe replaces the stored one, so the
collection is not content-equal to the original. -/
theorem C3_counterexample :
    ¬ ((saveRecipe (saveRecipe { savedRecipes := [{ title := "Soup", description := "old" }] }
          { title := "Soup", description := "new" } none)
        { title := "Soup", description := "new" } none).savedRecipes.Perm
      [{ title := "Soup", description := "old" }]) := by
  decide

/-- C3 (amended): in local mode, toggling the same recipe twice restores
the collection up to permutation, provided every title-match already in
the collection is that very recipe and occurs at most once (in
particular whenever the data-model invariant of one recipe per title
holds and the toggled recipe is the stored one). -/
theorem C3_toggle_idempotence_amended (st : StoreState) (r : Recipe)
    (hU : st.user = none)
    (hUniq : ∀ x ∈ st.savedRecipes, x.title = r.title → x = r)
    (hCount : st.savedRecipes.countP (fun x => x.title == r.title) ≤ 1) :
    ((saveRecipe (saveRecipe st r none) r none).savedRecipes).Perm st.savedRecipes := by
  cases hAny : st.savedRecipes.any (fun x => x.title == r.title) with
  | false =>
    have e1 : saveRecipe st r none =
        { st with savedRecipes := r :: st.savedRecipes,
                  cookbookSlot := some (r :: st.savedRecipes) } := by
      simp [saveRecipe, hAny, hU]
    rw [e1]
    have hAny2 : ((r :: st.savedRecipes).any (fun x => x.title == r.title)) = true := by
      simp
    have e2 : (saveRecipe
        { st with savedRecipes := r :: st.savedRecipes,
                  cookbookSlot := some (r :: st.savedRecipes) } r none).savedRecipes
        = (r :: st.savedRecipes).filter (fun x => x.title != r.title) := by
      simp [saveRecipe, hAny2]
    rw [e2, List.filter_cons_of_neg (by simp)]
    have hall : ∀ x ∈ st.savedRecipes, (x.title == r.title) = false := by
      intro x hx
      have := List.any_eq_false.mp hAny x hx
      simpa using this
    rw [List.filter_eq_self.mpr (fun x hx => by simp [bne, hall x hx])]
  | true =>
    have e1 : saveRecipe st r none =
        { st with
            savedRecipes := st.savedRecipes.filter (fun x => x.title != r.title),
            cookbookSlot := some (st.savedRecipes.filter (fun x => x.title != r.title)) } := by
      simp [saveRecipe, hAny, hU]
    rw [e1]
    have hAny2 : ((st.savedRecipes.filter (fun x => x.title != r.title)).any
        (fun x => x.title == r.title)) = false := by
      apply List.any_eq_false.mpr
      intro x hx
      have := (List.mem_filter.mp hx).2
      simpa using this
    have e2 : (saveRecipe
        { st with
            savedRecipes := st.savedRecipes.filter (fun x => x.title != r.title),
            cookbookSlot := some (st.savedRecipes.filter (fun x => x.title != r.title)) }
        r none).savedRecipes
        = r :: st.savedRecipes.filter (fun x => x.title != r.title) := by
      simp [saveRecipe, hAny2, hU]
    rw [e2, filter_title_eq_erase r st.savedRecipes hUniq hCount]
    have hrC : r ∈ st.savedRecipes := by
      obtain ⟨x, hx, hbx⟩ := List.any_eq_true.mp hAny
      have hxt : x.title = r.title := by simpa using hbx
      exact hUniq x hx hxt ▸ hx
    exact (List.perm_cons_erase hrC).symm

/-- Witness for C3 (amended): toggling a stored recipe twice at a
concrete singleton collection. -/
theorem C3_toggle_idempotence_amended_witness :
    ((saveRecipe (saveRecipe { savedRecipes := [soupA] } soupA none) soupA none).savedRecipes).Perm
      [soupA] :=
  C3_toggle_idempotence_amended { savedRecipes := [soupA] } soupA rfl (by decide) (by decide)

/-- When no migration call throws, the loop posts every local recipe in
order and completes. -/
theorem runMigration_no_exn :
    ∀ (recipes : List Recipe) (outcomes : List CallOutcome),
    (∀ o ∈ outcomes, o.isExn = false) →
    runMigration recipes outcomes = (recipes, none) := by
  intro recipes
  induction recipes with
  | nil => intro outcomes _; cases outcomes <;> rfl
  | cons r rs ih =>
    intro outcomes h
    cases outcomes with
    | nil =>
      have := ih [] (by intro o ho; cases ho)
      simp [runMigration, this]
    | cons o os =>
      have hos : ∀ o' ∈ os, o'.isExn = false :=
        fun o' ho' => h o' (List.mem_cons_of_mem _ ho')
      cases o with
      | exn m =>
        have := h _ (List.mem_cons_self _ _)
        simp [CallOutcome.isExn] at this
      | ok => simp [runMigration, ih os hos]
      | httpErr => simp [runMigration, ih os hos]

/-- A thrown call aborts the loop: exactly the recipes up to and
including the throwing one are posted, and the throw's message escapes.
-/
theorem runMigration_exn :
    ∀ (pre : List CallOutcome) (recipes : List Recipe) (m : String)
      (rest : List CallOutcome),
    (∀ o ∈ pre, o.isExn = false) → pre.length < recipes.length →
    runMigration recipes (pre ++ CallOutcome.exn m :: rest)
      = (recipes.take (pre.length + 1), some m) := by
  intro pre
  induction pre with
  | nil =>
    intro recipes m rest _ hlen
    cases recipes with
    | nil => simp at hlen
    | cons r rs => simp [runMigration]
  | cons o pre ih =>
    intro recipes m rest h hlen
    cases recipes with
    | nil => simp at hlen
    | cons r rs =>
      have hpre : ∀ o' ∈ pre, o'.isExn = false :=
        fun o' ho' => h o' (List.mem_cons_of_mem _ ho')
      have hlen' : pre.length < rs.length := by
        simp at hlen
        omega
      cases o with
      | exn m' =>
        have := h _ (List.mem_cons_self _ _)
        simp [CallOutcome.isExn] at this
      | ok => simp [runMigration, ih rs m rest hpre hlen']
      | httpErr => simp [runMigration, ih rs m rest hpre hlen']

/-- C2 is false as stated: a migration `add` that fails by throwing
aborts the loop, and the local collection is not cleared. -/
theorem C2_counterexample :
    (handleGoogleLogin { cookbookSlot := some [soupA] } (AuthOutcome.success aliceUser)
        [CallOutcome.exn "network"] none).cookbookSlot = some [soupA] ∧
    some [soupA] ≠ (none : Option (List Recipe)) ∧ [soupA] ≠ ([] : List Recipe) := by
  refine ⟨rfl, by decide, by decide⟩

/-- C2 (amended): migration posts each local recipe once, in collection
order, one awaited call at a time; a call that merely resolves with an
error response is ignored and the loop continues, and once every call
has completed without a throw the local collection slot is cleared
unconditionally; but a call that fails by throwing aborts the run at
that recipe, leaving the local collection slot untouched and recording
the error. -/
theorem C2_migration_amended (st : StoreState) (u : User) (recipes : List Recipe)
    (outcomes : List CallOutcome) (listResp : Option (List Recipe))
    (hSlot : st.cookbookSlot = some recipes) :
    ((∀ o ∈ outcomes, o.isExn = false) →
      (handleGoogleLogin st (.success u) outcomes listResp).cookbookSlot = none ∧
      (handleGoogleLogin st (.success u) outcomes listResp).postedRecipes
        = st.postedRecipes ++ recipes) ∧
    (∀ (pre : List CallOutcome) (m : String) (rest : List CallOutcome),
      outcomes = pre ++ CallOutcome.exn m :: rest →
      (∀ o ∈ pre, o.isExn = false) → pre.length < recipes.length →
      (handleGoogleLogin st (.success u) outcomes listResp).cookbookSlot = st.cookbookSlot ∧
      (handleGoogleLogin st (.success u) outcomes listResp).postedRecipes
        = st.postedRecipes ++ recipes.take (pre.length + 1) ∧
      (handleGoogleLogin st (.success u) outcomes listResp).error
        = some ("Login error: " ++ m)) := by
  constructor
  · intro hok
    have hrm := runMigration_no_exn recipes outcomes hok
    cases listResp <;> simp [handleGoogleLogin, hSlot, hrm]
  · intro pre m rest heq hpre hlen
    subst heq
    have hrm := runMigration_exn pre recipes m rest hpre hlen
    cases listResp <;> simp [handleGoogleLogin, hSlot, hrm]

/-- Witness for C2 (amended): two local recipes, one OK call and one
error-response call; the slot is cleared and both recipes were posted in
order. -/
theorem C2_migration_amended_witness :
    (handleGoogleLogin { cookbookSlot := some [soupA, soupB] } (AuthOutcome.success aliceUser)
        [CallOutcome.ok, CallOutcome.httpErr] none).cookbookSlot = none ∧
    (handleGoogleLogin { cookbookSlot := some [soupA, soupB] } (AuthOutcome.success aliceUser)
        [CallOutcome.ok, CallOutcome.httpErr] none).postedRecipes = [soupA, soupB] := by
  have h := (C2_migration_amended { cookbookSlot := some [soupA, soupB] } aliceUser
    [soupA, soupB] [CallOutcome.ok, CallOutcome.httpErr] none rfl).1 (by decide)
  exact ⟨h.1, by rw [h.2]; decide⟩

/-- C9: a failed authentication attempt — error response or thrown
transport error — records an error and installs nothing: the in-memory
user stays absent, the persisted session slot is untouched, and the
active collection (in memory and in the local slot) is unchanged. -/
theorem C9_auth_failure_no_partial_session (st : StoreState) (d m : String)
    (outcomes : List CallOutcome) (listResp : Option (List Recipe))
    (hU : st.user = none) :
    ((handleGoogleLogin st (.httpError d) outcomes listResp).user = none ∧
     (handleGoogleLogin st (.httpError d) outcomes listResp).userSlot = st.userSlot ∧
     (handleGoogleLogin st (.httpError d) outcomes listResp).savedRecipes = st.savedRecipes ∧
     (handleGoogleLogin st (.httpError d) outcomes listResp).cookbookSlot = st.cookbookSlot ∧
     (handleGoogleLogin st (.httpError d) outcomes listResp).error
        = some ("Login failed: " ++ d)) ∧
    ((handleGoogleLogin st (.exn m) outcomes listResp).user = none ∧
     (handleGoogleLogin st (.exn m) outcomes listResp).userSlot = st.userSlot ∧
     (handleGoogleLogin st (.exn m) outcomes listResp).savedRecipes = st.savedRecipes ∧
     (handleGoogleLogin st (.exn m) outcomes listResp).cookbookSlot = st.cookbookSlot ∧
     (handleGoogleLogin st (.exn m) outcomes listResp).error
        = some ("Login error: " ++ m)) := by
  constructor
  · simp [handleGoogleLogin, hU]
  · simp [handleGoogleLogin, hU]

/-- Witness for C9: a concrete failed login against a fresh state with a
non-empty local collection. -/
theorem C9_auth_failure_no_partial_session_witness :
    (handleGoogleLogin { savedRecipes := [soupA], cookbookSlot := some [soupA] }
        (.httpError "bad credential") [] none).user = none ∧
    (handleGoogleLogin { savedRecipes := [soupA], cookbookSlot := some [soupA] }
        (.httpError "bad credential") [] none).cookbookSlot = some [soupA] := by
  have h := (C9_auth_failure_no_partial_session
    { savedRecipes := [soupA], cookbookSlot := some [soupA] }
    "bad credential" "x" [] none rfl).1
  exact ⟨h.1, h.2.2.2.1⟩

/-- C6 is false as stated: a recipe whose `tags` field is present but an
empty list keeps that empty list — a truthy JS array — so its legacy
category is ignored by the category filter, instead of acting as a
singleton tag set. -/
theorem C6_counterexample :
    tagsOrLegacy { title := "Stew", tags := some [], category := some "Dinner" } = [] ∧
    filteredRecipes "" "Dinner"
        [{ title := "Stew", tags := some [], category := some "Dinner" }] = [] := by
  refine ⟨rfl, by decide⟩

/-- C6 (amended): the legacy-category fallback fires only when `tags` is
absent and the category string is truthy (non-empty): then the category
acts as a singleton tag set and such a recipe passes its category's
filter chip; a present empty-string category is falsy in JS and leaves
the recipe untagged, as does an absent category; and a
present-but-empty `tags` list leaves the recipe untagged even when a
category is present. -/
theorem C6_tag_resolution_amended (r : Recipe) (c : String) (ts : List String) :
    (r.tags = none → r.category = some c → c ≠ "" →
      tagsOrLegacy r = [c] ∧ passesFilter "" c r = true) ∧
    (r.tags = none → r.category = some "" → tagsOrLegacy r = []) ∧
    (r.tags = none → r.category = none → tagsOrLegacy r = []) ∧
    (r.tags = some ts → tagsOrLegacy r = ts) := by
  refine ⟨?_, ?_, ?_, ?_⟩
  · intro h1 h2 hcne
    refine ⟨by simp [tagsOrLegacy, h1, h2, hcne, categoryToTags], ?_⟩
    by_cases hc : c = "All"
    · simp [passesFilter, hc]
    · simp [passesFilter, hc, tagsOrLegacy, h1, h2, hcne, categoryToTags]
  · intro h1 h2
    simp [tagsOrLegacy, h1, h2]
  · intro h1 h2
    simp [tagsOrLegacy, h1, h2]
  · intro h
    simp [tagsOrLegacy, h]

/-- Witness for C6 (amended): a legacy recipe with only a (non-empty)
category. -/
theorem C6_tag_resolution_amended_witness :
    tagsOrLegacy { title := "Stew", category := some "Dinner" } = ["Dinner"] ∧
    passesFilter "" "Dinner" { title := "Stew", category := some "Dinner" } = true :=
  (C6_tag_resolution_amended { title := "Stew", category := some "Dinner" } "Dinner" []).1
    rfl rfl (by decide)

/-- A recipe tagged with both "Pizza" and "Pasta". -/
def pizzaPasta : Recipe :=
  { title := "PP", tags := some ["Pizza", "Pasta"] }

/-- C7 is false as stated: in the source `DISH_TYPES` list `Pasta`
precedes `Pizza`, so a recipe tagged with both lands in the "Pasta"
bucket and never in "Pizza". -/
theorem C7_counterexample :
    assignDish pizzaPasta = some "Pasta" ∧
    dishBucket "Pizza" [pizzaPasta] = [] ∧
    dishBucket "Pasta" [pizzaPasta] = [pizzaPasta] := by
  refine ⟨by decide, by decide, by decide⟩

/-- C7 (amended): dish assignment is exclusive and first-match over the
source `DISH_TYPES` order, in which Pasta is listed before Pizza: a
recipe tagged with both never appears in the "Pizza" bucket, is
assigned the "Pasta" dish if and only if none of the three
earlier-listed dish types (Airfryer, BBQ, Slow Cooker) also matches its
tags, and, when it is in the collection, sits in the "Pasta" bucket
exactly under that same no-earlier-match condition. -/
theorem C7_dish_assignment_amended (r : Recipe) (C : List Recipe)
    (_hPizza : dishMatches r "Pizza" = true) (hPasta : dishMatches r "Pasta" = true) :
    (assignDish r ≠ some "Pizza" ∧ r ∉ dishBucket "Pizza" C) ∧
    (assignDish r = some "Pasta" ↔
      (dishMatches r "Airfryer" = false ∧ dishMatches r "BBQ" = false ∧
        dishMatches r "Slow Cooker" = false)) ∧
    (r ∈ C →
      (r ∈ dishBucket "Pasta" C ↔
        (dishMatches r "Airfryer" = false ∧ dishMatches r "BBQ" = false ∧
          dishMatches r "Slow Cooker" = false))) := by
  have hne : assignDish r ≠ some "Pizza" := by
    unfold assignDish DISH_TYPES
    cases h1 : dishMatches r "Airfryer" <;> cases h2 : dishMatches r "BBQ" <;>
      cases h3 : dishMatches r "Slow Cooker" <;>
        simp [List.find?, h1, h2, h3, hPasta]
  have hchar : assignDish r = some "Pasta" ↔
      (dishMatches r "Airfryer" = false ∧ dishMatches r "BBQ" = false ∧
        dishMatches r "Slow Cooker" = false) := by
    unfold assignDish DISH_TYPES
    cases h1 : dishMatches r "Airfryer" <;> cases h2 : dishMatches r "BBQ" <;>
      cases h3 : dishMatches r "Slow Cooker" <;>
        simp [List.find?, h1, h2, h3, hPasta]
  refine ⟨⟨hne, ?_⟩, hchar, ?_⟩
  · intro hmem
    have := (List.mem_filter.mp hmem).2
    exact hne (by simpa using this)
  · intro hC
    constructor
    · intro hmem
      have := (List.mem_filter.mp hmem).2
      exact hchar.mp (by simpa using this)
    · intro h3
      apply List.mem_filter.mpr
      exact ⟨hC, by simp [hchar.mpr h3]⟩

/-- Witness for C7 (amended) at concrete doubly-tagged recipes: no
earlier dish type matches `pizzaPasta`, so it is assigned "Pasta"; a
third recipe also tagged "BBQ" is not assigned "Pasta". -/
theorem C7_dish_assignment_amended_witness :
    assignDish pizzaPasta ≠ some "Pizza" ∧
    assignDish pizzaPasta = some "Pasta" ∧
    assignDish { title := "BP", tags := some ["BBQ", "Pizza", "Pasta"] } ≠ some "Pasta" := by
  have h := C7_dish_assignment_amended pizzaPasta [] (by decide) (by decide)
  have hb := C7_dish_assignment_amended { title := "BP", tags := some ["BBQ", "Pizza", "Pasta"] }
    [] (by decide) (by decide)
  refine ⟨h.1.1, h.2.1.mpr ⟨by decide, by decide, by decide⟩, ?_⟩
  intro hps
  exact absurd (hb.2.1.mp hps).2.1 (by decide)
